import Mathlib

/-!
# Verification of the solana_dex_arb core against its specification

Shallow embedding of the repository's source (src/src/*.rs) in Lean 4.

Modelling conventions:
* `Pubkey` (32 raw bytes in the source) is a natural number, obtained from
  account bytes by little-endian assembly of the 32 bytes.
* Machine integers (`u64`, `u128`, ...) are `Nat` with explicit `% 2 ^ w`
  wherever the source converts (`as u64`, `as u16`) or wherever overflow is
  possible; `i32` is `Int` obtained by two's-complement decoding.
* Fallible Rust code is embedded in `RustResult`: `ok` mirrors `Ok`,
  `error` mirrors a returned `Err`, and `panicked` mirrors a Rust panic
  (`unwrap` on `None`, out-of-range slice indexing, debug-mode arithmetic
  underflow).  Account fetches (`client.get_account`) are a function
  `Client : Pubkey → Option Account`; `none` models an RPC error, which the
  source propagates with `?` as an `Err`.
* `f64` arithmetic in the CLMM/DLMM quote engines is embedded as exact
  rational (`ℚ`) arithmetic; the final `as u64` cast is the saturating
  float-to-integer cast (truncation toward zero, clamped to `[0, 2^64)`).
* `HashMap` is an association list with insert-replace semantics; `HashSet`
  of pubkeys is a `List Pubkey` with membership.
-/

/-- Outcome of a Rust computation: success, a returned `Err`, or a panic. -/
inductive RustResult (α : Type) where
  | panicked : RustResult α
  | error : String → RustResult α
  | ok : α → RustResult α
deriving DecidableEq, Repr

/-- Solana public key, abstracted to the natural number encoded by its
32 little-endian bytes. -/
abbrev Pubkey := Nat

/-- Ledger account; only the `data` bytes are used by the source. -/
structure Account where
  data : List Nat
deriving DecidableEq, Repr

/-- The RPC client, modelled as a partial map from address to account.
`none` models a failed `get_account` call (propagated as `Err` by `?`). -/
abbrev Client := Pubkey → Option Account

/-- `data[off..off+len]` as a byte list:  `some` of the (byte-masked) slice
when in range, `none` when the slice would be out of range (a Rust panic). -/
def sliceBytes (data : List Nat) (off len : Nat) : Option (List Nat) :=
  if off + len ≤ data.length then some (((data.drop off).take len).map (· % 256))
  else none

/-- Little-endian byte assembly. -/
def leBytesToNat (bs : List Nat) : Nat :=
  bs.foldr (fun b acc => b + 256 * acc) 0

/-- `common.rs::read_u64`: little-endian `u64` at `offset`; `none` models the
panic of the out-of-range slice. -/
def read_u64 (data : List Nat) (offset : Nat) : Option Nat :=
  (sliceBytes data offset 8).map leBytesToNat

/-- `common.rs::read_spl_amount`: token amount at offset 64 of an SPL token
account. -/
def read_spl_amount (acc : Account) : Option Nat :=
  read_u64 acc.data 64

/-- `common.rs::read_mint_decimals`: the byte at offset 44 of a mint
account. -/
def read_mint_decimals (acc : Account) : Option Nat :=
  (sliceBytes acc.data 44 1).map leBytesToNat

/-- `Pubkey::new_from_array` applied to `data[off..off+32]`. -/
def readPubkeyAt (data : List Nat) (off : Nat) : Option Pubkey :=
  (sliceBytes data off 32).map leBytesToNat

/-- Little-endian `u16` at `off`. -/
def readU16 (data : List Nat) (off : Nat) : Option Nat :=
  (sliceBytes data off 2).map leBytesToNat

/-- Little-endian `u32` at `off`. -/
def readU32 (data : List Nat) (off : Nat) : Option Nat :=
  (sliceBytes data off 4).map leBytesToNat

/-- Little-endian `u128` at `off`. -/
def readU128 (data : List Nat) (off : Nat) : Option Nat :=
  (sliceBytes data off 16).map leBytesToNat

/-- Little-endian `i32` at `off` (two's complement). -/
def readI32 (data : List Nat) (off : Nat) : Option Int :=
  (sliceBytes data off 4).map (fun bs =>
    let n := leBytesToNat bs
    if n < 2 ^ 31 then (n : Int) else (n : Int) - 2 ^ 32)

/-- `u128::checked_mul`. -/
def u128_checked_mul (a b : Nat) : Option Nat :=
  if a * b < 2 ^ 128 then some (a * b) else none

/-- `u128::checked_add`. -/
def u128_checked_add (a b : Nat) : Option Nat :=
  if a + b < 2 ^ 128 then some (a + b) else none

/-- `amm.rs::CheckedCeilDiv::checked_ceil_div` for `u128`:
`checked_div` / `checked_rem` fail exactly when `rhs = 0`; when the
remainder is nonzero the quotient is incremented with `checked_add`. -/
def checked_ceil_div (a rhs : Nat) : Option Nat :=
  if rhs = 0 then none
  else if a % rhs ≠ 0 then u128_checked_add (a / rhs) 1
  else some (a / rhs)

/-! ## Raydium AMM v4 (`src/dex/raydium/amm.rs`) -/

/-- Byte offsets of the AMM v4 account layout (`amm.rs`). -/
def BASE_VAULT_OFFSET : Nat := 336
def QUOTE_VAULT_OFFSET : Nat := 368
def BASE_MINT_OFFSET : Nat := 400
def QUOTE_MINT_OFFSET : Nat := 432
def FEES_OFFSET : Nat := 128

/-- `amm.rs::Fees` (all fields `u64`). -/
structure Fees where
  min_separate_numerator : Nat
  min_separate_denominator : Nat
  trade_fee_numerator : Nat
  trade_fee_denominator : Nat
  pnl_numerator : Nat
  pnl_denominator : Nat
  swap_fee_numerator : Nat
  swap_fee_denominator : Nat
deriving DecidableEq, Repr

/-- `amm.rs::read_fees`: eight consecutive `u64` fields at `FEES_OFFSET`;
`none` models the panic of an out-of-range read. -/
def read_fees (data : List Nat) : Option Fees :=
  match read_u64 data FEES_OFFSET, read_u64 data (FEES_OFFSET + 8),
        read_u64 data (FEES_OFFSET + 16), read_u64 data (FEES_OFFSET + 24),
        read_u64 data (FEES_OFFSET + 32), read_u64 data (FEES_OFFSET + 40),
        read_u64 data (FEES_OFFSET + 48), read_u64 data (FEES_OFFSET + 56) with
  | some a, some b, some c, some d, some e, some f, some g, some h =>
      some ⟨a, b, c, d, e, f, g, h⟩
  | _, _, _, _, _, _, _, _ => none

/-- `amm.rs::RaydiumAmmPoolInfo`. -/
structure RaydiumAmmPoolInfo where
  pubkey : Pubkey
  base_vault : Pubkey
  quote_vault : Pubkey
  base_mint : Pubkey
  quote_mint : Pubkey
  fees : Fees
deriving DecidableEq, Repr

/-- `RaydiumAmmPoolInfo::create`: fetch the pool account and read the vault
and mint pubkeys and the `Fees` struct at fixed offsets.  The source slices
the account data without a length check, so an undersized account panics. -/
def RaydiumAmmPoolInfo.create (pool_pubkey : Pubkey) (client : Client) :
    RustResult RaydiumAmmPoolInfo :=
  match client pool_pubkey with
  | none => .error "account not found"
  | some account =>
    match readPubkeyAt account.data BASE_VAULT_OFFSET,
          readPubkeyAt account.data QUOTE_VAULT_OFFSET,
          readPubkeyAt account.data BASE_MINT_OFFSET,
          readPubkeyAt account.data QUOTE_MINT_OFFSET,
          read_fees account.data with
    | some base_vault, some quote_vault, some base_mint, some quote_mint,
      some fees =>
        .ok ⟨pool_pubkey, base_vault, quote_vault, base_mint, quote_mint, fees⟩
    | _, _, _, _, _ => .panicked

/-- Tail of `RaydiumAmmPoolInfo::amount_out` after the direction is chosen:
zero-reserve short-circuit, then
`reserve_out - reserve_in * reserve_out / (reserve_in + amount_in_after_fee)`.
`reserve_in * reserve_out < 2 ^ 128` since both reserves are `u64`, so the
`u128` product cannot overflow. -/
def ammConstantProduct (reserve_in reserve_out amount_in_after_fee : Nat) :
    RustResult Nat :=
  if reserve_in = 0 ∨ reserve_out = 0 then .ok 0
  else
    let q := reserve_in * reserve_out / (reserve_in + amount_in_after_fee)
    if reserve_out < q then .panicked
    else .ok ((reserve_out - q) % 2 ^ 64)

/-- `RaydiumAmmPoolInfo::amount_out` (constant-product quote, `amm.rs`).
Both vault balances are fetched live; the fee is
`ceil(amount_in * swap_fee_numerator / swap_fee_denominator)` computed with
checked operations whose `None` is `unwrap`ped (a panic), then deducted with
`saturating_sub` (which is `Nat` subtraction).  The final `u128` subtraction
cannot underflow only because the quotient is at most `reserve_out`; it is
modelled with debug-mode semantics (panic on underflow), and the `as u64`
cast is `% 2 ^ 64`. -/
def RaydiumAmmPoolInfo.amount_out (p : RaydiumAmmPoolInfo) (client : Client)
    (amount_in : Nat) (token_in : Pubkey) : RustResult Nat :=
  if amount_in = 0 then .ok 0
  else
    match client p.base_vault with
    | none => .error "account not found"
    | some base_vault_acc =>
      match client p.quote_vault with
      | none => .error "account not found"
      | some quote_vault_acc =>
        match read_spl_amount base_vault_acc, read_spl_amount quote_vault_acc with
        | some base_raw, some quote_raw =>
          match u128_checked_mul amount_in p.fees.swap_fee_numerator with
          | none => .panicked
          | some prod =>
            match checked_ceil_div prod p.fees.swap_fee_denominator with
            | none => .panicked
            | some swap_fee =>
              let amount_in_after_fee := amount_in - swap_fee
              if token_in = p.base_mint then
                ammConstantProduct base_raw quote_raw amount_in_after_fee
              else if token_in = p.quote_mint then
                ammConstantProduct quote_raw base_raw amount_in_after_fee
              else .error "token_in is neither mint_a nor mint_b"
        | _, _ => .panicked

/-- `RaydiumAmmPoolInfo::calc_swap_fee`: the same checked fee computation,
with the result cast `as u64`. -/
def RaydiumAmmPoolInfo.calc_swap_fee (p : RaydiumAmmPoolInfo)
    (amount_in : Nat) : RustResult Nat :=
  match u128_checked_mul amount_in p.fees.swap_fee_numerator with
  | none => .panicked
  | some prod =>
    match checked_ceil_div prod p.fees.swap_fee_denominator with
    | none => .panicked
    | some swap_fee => .ok (swap_fee % 2 ^ 64)

/-! ## Raydium CLMM (`src/dex/raydium/clmm.rs`) -/

/-- Byte offsets of the CLMM `PoolState` account layout (`clmm.rs`). -/
def AMM_CONFIG_OFFSET : Nat := 9
def MINT_A_OFFSET : Nat := 73
def MINT_B_OFFSET : Nat := 105
def VAULT_A_OFFSET : Nat := 137
def VAULT_B_OFFSET : Nat := 169
def TICK_SPACING_OFFSET : Nat := 235
def LIQUIDITY_OFFSET : Nat := 237
def SQRT_PRICE_X64_OFFSET : Nat := 253
def TICK_CURRENT_OFFSET : Nat := 269

/-- `clmm.rs::RaydiumClmmPoolInfo`. -/
structure RaydiumClmmPoolInfo where
  pubkey : Pubkey
  amm_config : Pubkey
  mint_a : Pubkey
  mint_b : Pubkey
  vault_a : Pubkey
  vault_b : Pubkey
  decimals_a : Nat
  decimals_b : Nat
  tick_spacing : Nat
  liquidity : Nat
  sqrt_price_x64 : Nat
  tick_current : Int
  fee_rate_bps : Nat
deriving DecidableEq, Repr

/-- `clmm.rs::read_clmm_fee_rate_bps`: read `trade_fee_rate` (`u32`, in
hundredths of a basis point) at offset 47 of the `AmmConfig` account and
convert to basis points by `/ 100` with an `as u16` cast; fall back to 25
bps when the account is shorter than 51 bytes. -/
def read_clmm_fee_rate_bps (client : Client) (amm_config : Pubkey) :
    RustResult Nat :=
  match client amm_config with
  | none => .error "account not found"
  | some acc =>
    if 47 + 4 ≤ acc.data.length then
      match readU32 acc.data 47 with
      | some trade_fee_rate => .ok (trade_fee_rate / 100 % 2 ^ 16)
      | none => .panicked
    else .ok 25

/-- `RaydiumClmmPoolInfo::create`: fetch the pool account, read the fields
at fixed offsets (out-of-range slicing panics), then fetch both mint
accounts for the decimal counts and the `AmmConfig` account for the fee. -/
def RaydiumClmmPoolInfo.create (pool_pubkey : Pubkey) (client : Client) :
    RustResult RaydiumClmmPoolInfo :=
  match client pool_pubkey with
  | none => .error "account not found"
  | some account =>
    match readPubkeyAt account.data AMM_CONFIG_OFFSET,
          readPubkeyAt account.data MINT_A_OFFSET,
          readPubkeyAt account.data MINT_B_OFFSET,
          readPubkeyAt account.data VAULT_A_OFFSET,
          readPubkeyAt account.data VAULT_B_OFFSET with
    | some amm_config, some mint_a, some mint_b, some vault_a, some vault_b =>
      match readU16 account.data TICK_SPACING_OFFSET,
            readU128 account.data LIQUIDITY_OFFSET,
            readU128 account.data SQRT_PRICE_X64_OFFSET,
            readI32 account.data TICK_CURRENT_OFFSET with
      | some tick_spacing, some liquidity, some sqrt_price_x64,
        some tick_current =>
        match client mint_a with
        | none => .error "account not found"
        | some mint_a_acc =>
          match client mint_b with
          | none => .error "account not found"
          | some mint_b_acc =>
            match read_mint_decimals mint_a_acc, read_mint_decimals mint_b_acc with
            | some decimals_a, some decimals_b =>
              match read_clmm_fee_rate_bps client amm_config with
              | .panicked => .panicked
              | .error e => .error e
              | .ok fee_rate_bps =>
                .ok ⟨pool_pubkey, amm_config, mint_a, mint_b, vault_a, vault_b,
                     decimals_a, decimals_b, tick_spacing, liquidity,
                     sqrt_price_x64, tick_current, fee_rate_bps⟩
            | _, _ => .panicked
      | _, _, _, _ => .panicked
    | _, _, _, _, _ => .panicked

/-- The Rust `as u64` cast of a positive `f64`: truncation toward zero,
saturating at the `u64` range. -/
def f64AsU64 (q : ℚ) : Nat :=
  min (2 ^ 64 - 1) (Int.toNat ⌊q⌋)

/-- `RaydiumClmmPoolInfo::amount_out` (single-tick approximate quote).
`amount_in == 0 || liquidity == 0` is rejected with an error; the `u128`
subtraction `10_000 - fee_bps` underflows (debug-mode panic) when the fee
exceeds 10000 bps; the `f64` price arithmetic is embedded as exact `ℚ`
arithmetic. -/
def RaydiumClmmPoolInfo.amount_out (p : RaydiumClmmPoolInfo) (_client : Client)
    (amount_in : Nat) (token_in : Pubkey) : RustResult Nat :=
  if amount_in = 0 ∨ p.liquidity = 0 then
    .error "Amount in is 0 or liquidity is 0"
  else if 10000 < p.fee_rate_bps then .panicked
  else
    let amount_in_after_fee := amount_in * (10000 - p.fee_rate_bps) / 10000
    let sqrt_p : ℚ := (p.sqrt_price_x64 : ℚ) / 2 ^ 64
    if sqrt_p = 0 then .error "Sqrt price is 0"
    else
      let price : ℚ := sqrt_p * sqrt_p *
        (10 : ℚ) ^ ((p.decimals_a : Int) - (p.decimals_b : Int))
      if price = 0 then .error "Price is 0"
      else
        let amount_in_f : ℚ := amount_in_after_fee
        if token_in = p.mint_a then
          let amount_out_f := amount_in_f * price *
            (10 : ℚ) ^ ((p.decimals_b : Int) - (p.decimals_a : Int))
          if amount_out_f ≤ 0 then .error "Amount out is less than 0"
          else .ok (f64AsU64 amount_out_f)
        else if token_in = p.mint_b then
          let amount_out_f := amount_in_f / price *
            (10 : ℚ) ^ ((p.decimals_a : Int) - (p.decimals_b : Int))
          if amount_out_f ≤ 0 then .error "Amount out is less than 0"
          else .ok (f64AsU64 amount_out_f)
        else .error "Token in is not mint_a or mint_b"

/-! ## Meteora DLMM (`src/dex/meteora/dlmm.rs`)

The DLMM module exists in the repository source tree but is not declared in
`src/dex/mod.rs` (which declares only `pub mod raydium`); it is embedded
here because claims about the bin-stepped variant refer to it. -/

/-- `size_of::<LbPair>()` for the `repr(C)` struct in `dlmm.rs`:
`parameters` (32) + `v_parameters` (32) + seeds/ids/step block (16) +
four pubkeys (128) + `protocol_fee` (16) + padding (32) + two
`RewardInfo` (288) + `oracle` (32) + `bin_array_bitmap` (128) +
trailing fields and padding (152) + `creator` (32) + reserved (24+) = 896,
with alignment 16. -/
def LBPAIR_SIZE : Nat := 896

/-- `dlmm.rs::DlmmInfo`, restricted to the fields of `LbPair` the program
reads (`lb_pair` is kept as its two used scalar fields `base_factor` and
`bin_step`).  Offsets are relative to the start of `LbPair`
(`data[8..]`): `active_id` at 68, `bin_step` at 72, `token_x_mint` at 80,
`token_y_mint` at 112, `reserve_x` at 144, `reserve_y` at 176, `oracle` at
544, `parameters.base_factor` at 0. -/
structure DlmmInfo where
  token_x_mint : Pubkey
  token_y_mint : Pubkey
  token_x_vault : Pubkey
  token_y_vault : Pubkey
  oracle : Pubkey
  active_id : Int
  base_factor : Nat
  bin_step : Nat
deriving DecidableEq, Repr

/-- `DlmmInfo::load_checked`: rejects data shorter than
`8 + size_of::<LbPair>()` with an error, then reads `LbPair` from
`data[8..]` (the unaligned read always succeeds given the length check). -/
def DlmmInfo.load_checked (data : List Nat) : RustResult DlmmInfo :=
  if data.length < 8 + LBPAIR_SIZE then .error "Invalid data length for DlmmInfo"
  else
    match readPubkeyAt data (8 + 80), readPubkeyAt data (8 + 112),
          readPubkeyAt data (8 + 144), readPubkeyAt data (8 + 176),
          readPubkeyAt data (8 + 544), readI32 data (8 + 68),
          readU16 data (8 + 0), readU16 data (8 + 72) with
    | some token_x_mint, some token_y_mint, some reserve_x, some reserve_y,
      some oracle, some active_id, some base_factor, some bin_step =>
        .ok ⟨token_x_mint, token_y_mint, reserve_x, reserve_y, oracle,
             active_id, base_factor, bin_step⟩
    | _, _, _, _, _, _, _, _ => .panicked

/-- `dlmm.rs::MeteoraDlmmPoolInfo`. -/
structure MeteoraDlmmPoolInfo where
  pubkey : Pubkey
  mint_a : Pubkey
  mint_b : Pubkey
  vault_a : Pubkey
  vault_b : Pubkey
  decimals_a : Nat
  decimals_b : Nat
  active_id : Int
  bin_step : Nat
  fee_rate_bps : Nat
deriving DecidableEq, Repr

/-- `MeteoraDlmmPoolInfo::from_dlmm_info`: fetch both mint accounts for the
decimal counts; the fee is `lb_pair.parameters.base_factor` (bps). -/
def MeteoraDlmmPoolInfo.from_dlmm_info (pool_pubkey : Pubkey)
    (dlmm_info : DlmmInfo) (client : Client) : RustResult MeteoraDlmmPoolInfo :=
  match client dlmm_info.token_x_mint with
  | none => .error "account not found"
  | some mint_a_acc =>
    match client dlmm_info.token_y_mint with
    | none => .error "account not found"
    | some mint_b_acc =>
      match read_mint_decimals mint_a_acc, read_mint_decimals mint_b_acc with
      | some decimals_a, some decimals_b =>
        .ok ⟨pool_pubkey, dlmm_info.token_x_mint, dlmm_info.token_y_mint,
             dlmm_info.token_x_vault, dlmm_info.token_y_vault,
             decimals_a, decimals_b, dlmm_info.active_id, dlmm_info.bin_step,
             dlmm_info.base_factor⟩
      | _, _ => .panicked

/-- `MeteoraDlmmPoolInfo::create`. -/
def MeteoraDlmmPoolInfo.create (pool_pubkey : Pubkey) (client : Client) :
    RustResult MeteoraDlmmPoolInfo :=
  match client pool_pubkey with
  | none => .error "account not found"
  | some account =>
    match DlmmInfo.load_checked account.data with
    | .panicked => .panicked
    | .error e => .error e
    | .ok dlmm_info => MeteoraDlmmPoolInfo.from_dlmm_info pool_pubkey dlmm_info client

/-- `MeteoraDlmmPoolInfo::amount_out` (bin-stepped quote).
`price = (1 + bin_step/10000) ^ active_id` with `f64` arithmetic embedded as
exact `ℚ` (`powi` is `zpow`); the direction check tests only
`token_in == mint_a`: every other token is quoted as a b→a swap.  The `u128`
subtraction `10_000 - fee_bps` underflows (debug-mode panic) when the fee
exceeds 10000 bps. -/
def MeteoraDlmmPoolInfo.amount_out (p : MeteoraDlmmPoolInfo) (_client : Client)
    (amount_in : Nat) (token_in : Pubkey) : RustResult Nat :=
  if amount_in = 0 then .ok 0
  else if 10000 < p.fee_rate_bps then .panicked
  else
    let amount_in_after_fee := amount_in * (10000 - p.fee_rate_bps) / 10000
    let bin_step_f : ℚ := (p.bin_step : ℚ) / 10000
    let price_ratio : ℚ := (1 + bin_step_f) ^ p.active_id
    if price_ratio = 0 then .error "Price ratio is 0"
    else
      let amount_in_f : ℚ := amount_in_after_fee
      let amount_out_f : ℚ :=
        if token_in = p.mint_a then
          amount_in_f * price_ratio *
            (10 : ℚ) ^ ((p.decimals_b : Int) - (p.decimals_a : Int))
        else
          amount_in_f / price_ratio *
            (10 : ℚ) ^ ((p.decimals_a : Int) - (p.decimals_b : Int))
      if amount_out_f ≤ 0 then .error "Amount out is less than 0"
      else .ok (f64AsU64 amount_out_f)

/-! ## The `PoolMints` trait object (`src/dex/mod.rs`) -/

/-- `Arc<dyn PoolMints>`: one of the three pool structures behind the
common trait. -/
inductive PoolMints where
  | amm : RaydiumAmmPoolInfo → PoolMints
  | clmm : RaydiumClmmPoolInfo → PoolMints
  | dlmm : MeteoraDlmmPoolInfo → PoolMints
deriving DecidableEq, Repr

/-- Trait method `pool_pubkey`. -/
def PoolMints.pool_pubkey : PoolMints → Pubkey
  | .amm p => p.pubkey
  | .clmm p => p.pubkey
  | .dlmm p => p.pubkey

/-- Trait method `mint_a`. -/
def PoolMints.mint_a : PoolMints → Pubkey
  | .amm p => p.base_mint
  | .clmm p => p.mint_a
  | .dlmm p => p.mint_a

/-- Trait method `mint_b`. -/
def PoolMints.mint_b : PoolMints → Pubkey
  | .amm p => p.quote_mint
  | .clmm p => p.mint_b
  | .dlmm p => p.mint_b

/-- Trait method `amount_out` (virtual dispatch). -/
def PoolMints.amount_out (pool : PoolMints) (client : Client)
    (amount_in : Nat) (token_in : Pubkey) : RustResult Nat :=
  match pool with
  | .amm p => p.amount_out client amount_in token_in
  | .clmm p => p.amount_out client amount_in token_in
  | .dlmm p => p.amount_out client amount_in token_in

/-! ## Pool registry (`src/config.rs`) -/

/-- `config.rs::PoolConfig`: one configured mint with its pool address
lists. -/
structure PoolConfig where
  mint : String
  raydium_amm : List String
  raydium_clmm : List String
deriving DecidableEq, Repr

/-- `config.rs::Config`. -/
structure Config where
  pools : List PoolConfig
deriving DecidableEq, Repr

/-- `HashMap::get` on the association-list model. -/
def hmGet {β : Type} : List (Pubkey × β) → Pubkey → Option β
  | [], _ => none
  | (k, v) :: rest, key => if k = key then some v else hmGet rest key

/-- `HashMap::insert` on the association-list model: replace the existing
binding or append a new one. -/
def hmInsert {β : Type} : List (Pubkey × β) → Pubkey → β → List (Pubkey × β)
  | [], key, v => [(key, v)]
  | (k, w) :: rest, key, v =>
      if k = key then (key, v) :: rest else (k, w) :: hmInsert rest key v

/-- The `for amm_address in &pool_config.raydium_amm` loop: parse each
address (`?` turns a parse failure into an `Err`), decode the pool with
`RaydiumAmmPoolInfo::create` (`?` propagates its failure) and push the
`Arc<dyn PoolMints>`.  `parse` is the external base58 pubkey parser of
`solana_sdk`, passed as a collaborator. -/
def buildAmmPools (parse : String → Option Pubkey) (client : Client) :
    List String → RustResult (List PoolMints)
  | [] => .ok []
  | addr :: rest =>
    match parse addr with
    | none => .error "invalid pubkey"
    | some pool_pubkey =>
      match RaydiumAmmPoolInfo.create pool_pubkey client with
      | .panicked => .panicked
      | .error e => .error e
      | .ok amm_pool =>
        match buildAmmPools parse client rest with
        | .panicked => .panicked
        | .error e => .error e
        | .ok pools => .ok (.amm amm_pool :: pools)

/-- The `for clmm_address in &pool_config.raydium_clmm` loop. -/
def buildClmmPools (parse : String → Option Pubkey) (client : Client) :
    List String → RustResult (List PoolMints)
  | [] => .ok []
  | addr :: rest =>
    match parse addr with
    | none => .error "invalid pubkey"
    | some pool_pubkey =>
      match RaydiumClmmPoolInfo.create pool_pubkey client with
      | .panicked => .panicked
      | .error e => .error e
      | .ok clmm_pool =>
        match buildClmmPools parse client rest with
        | .panicked => .panicked
        | .error e => .error e
        | .ok pools => .ok (.clmm clmm_pool :: pools)

/-- `pools_for_mint` of one config entry: the AMM pools then the CLMM
pools, in configuration order. -/
def buildEntryPools (parse : String → Option Pubkey) (client : Client)
    (entry : PoolConfig) : RustResult (List PoolMints) :=
  match buildAmmPools parse client entry.raydium_amm with
  | .panicked => .panicked
  | .error e => .error e
  | .ok amm_pools =>
    match buildClmmPools parse client entry.raydium_clmm with
    | .panicked => .panicked
    | .error e => .error e
    | .ok clmm_pools => .ok (amm_pools ++ clmm_pools)

/-- The `for pool_config in &self.pools` loop of
`Config::build_pools_hashmap`: parse the entry's mint, build its pool list,
and insert it under the mint key only when the list is nonempty. -/
def buildPoolsLoop (parse : String → Option Pubkey) (client : Client) :
    List PoolConfig → List (Pubkey × List PoolMints) →
    RustResult (List (Pubkey × List PoolMints))
  | [], pools_map => .ok pools_map
  | entry :: rest, pools_map =>
    match parse entry.mint with
    | none => .error "invalid pubkey"
    | some mint_key =>
      match buildEntryPools parse client entry with
      | .panicked => .panicked
      | .error e => .error e
      | .ok pools_for_mint =>
        buildPoolsLoop parse client rest
          (if pools_for_mint = [] then pools_map
           else hmInsert pools_map mint_key pools_for_mint)

/-- `Config::build_pools_hashmap`. -/
def Config.build_pools_hashmap (cfg : Config) (parse : String → Option Pubkey)
    (client : Client) : RustResult (List (Pubkey × List PoolMints)) :=
  buildPoolsLoop parse client cfg.pools []

/-! ## Arbitrage search (`src/arb.rs`) -/

/-- The direction selection of `dfs` (arb.rs lines 74-80): `(token_in,
token_out)` is `(mint_a, mint_b)` when `mint_a == current_mint`,
`(mint_b, mint_a)` when `mint_b == current_mint`, otherwise the pool is
skipped. -/
def poolDir (pool : PoolMints) (current_mint : Pubkey) :
    Option (Pubkey × Pubkey) :=
  if pool.mint_a = current_mint then some (pool.mint_a, pool.mint_b)
  else if pool.mint_b = current_mint then some (pool.mint_b, pool.mint_a)
  else none

/-- The per-chain logging recomputation inside the accept branch of `dfs`
(arb.rs lines 104-152): walk the accepted path from `start_amount`,
recomputing each hop; a direction mismatch or a quote `Err` breaks the loop
(only diagnostics are lost), while a quote panic propagates. -/
def logChain (client : Client) : Nat → Pubkey → List PoolMints →
    RustResult Unit
  | _, _, [] => .ok ()
  | chain_amount, current_token, pool :: rest =>
    match poolDir pool current_token with
    | none => .ok ()
    | some (token_in, token_out) =>
      match pool.amount_out client chain_amount token_in with
      | .panicked => .panicked
      | .error _ => .ok ()
      | .ok amount_out => logChain client amount_out token_out rest

/-- One level of the recursive `dfs` of `arb.rs`, with `fuel =
max_depth - depth` (the `depth >= max_depth` check is `fuel = 0`).
`dfsRec` is the recursive call for the next depth; `current_path` and
`used_pools` are restored after every iteration in the source
(push/insert then pop/remove), so each loop iteration starts from the same
`current_path`/`used_pools` and only `result` accumulates. -/
def dfsLoop (client : Client) (start_mint : Pubkey) (start_amount : Nat)
    (dfsRec : Pubkey → Nat → List PoolMints → List Pubkey →
      List (List PoolMints) → RustResult (List (List PoolMints)))
    (pools : List PoolMints) (current_mint : Pubkey) (current_amount : Nat)
    (current_path : List PoolMints) (used_pools : List Pubkey)
    (result : List (List PoolMints)) : RustResult (List (List PoolMints)) :=
  match pools with
  | [] => .ok result
  | pool :: rest =>
    if pool.pool_pubkey ∈ used_pools then
      dfsLoop client start_mint start_amount dfsRec rest current_mint
        current_amount current_path used_pools result
    else
      match poolDir pool current_mint with
      | none =>
        dfsLoop client start_mint start_amount dfsRec rest current_mint
          current_amount current_path used_pools result
      | some (token_in, token_out) =>
        match pool.amount_out client current_amount token_in with
        | .panicked => .panicked
        | .error _ =>
          dfsLoop client start_mint start_amount dfsRec rest current_mint
            current_amount current_path used_pools result
        | .ok amount_out =>
          if amount_out = 0 then
            dfsLoop client start_mint start_amount dfsRec rest current_mint
              current_amount current_path used_pools result
          else
            if token_out = start_mint then
              if start_amount < amount_out then
                match logChain client start_amount start_mint
                    (current_path ++ [pool]) with
                | .panicked => .panicked
                | _ =>
                  dfsLoop client start_mint start_amount dfsRec rest
                    current_mint current_amount current_path used_pools
                    (result ++ [current_path ++ [pool]])
              else
                dfsLoop client start_mint start_amount dfsRec rest current_mint
                  current_amount current_path used_pools result
            else
              match dfsRec token_out amount_out (current_path ++ [pool])
                  (used_pools ++ [pool.pool_pubkey]) result with
              | .panicked => .panicked
              | .error e => .error e
              | .ok next_result =>
                dfsLoop client start_mint start_amount dfsRec rest current_mint
                  current_amount current_path used_pools next_result

/-- The recursive `dfs` of `arb.rs`: stop at `fuel = 0`
(`depth >= max_depth`) or when the current mint has no bucket, otherwise
iterate over the bucket with `dfsLoop`. -/
def dfs (client : Client) (start_mint : Pubkey) (start_amount : Nat)
    (pools_map : List (Pubkey × List PoolMints)) :
    Nat → Pubkey → Nat → List PoolMints → List Pubkey →
    List (List PoolMints) → RustResult (List (List PoolMints))
  | 0, _, _, _, _, result => .ok result
  | fuel + 1, current_mint, current_amount, current_path, used_pools, result =>
    match hmGet pools_map current_mint with
    | none => .ok result
    | some pools =>
      dfsLoop client start_mint start_amount
        (dfs client start_mint start_amount pools_map fuel)
        pools current_mint current_amount current_path used_pools result

/-- `arb.rs::build_arbitrage_graph`: run `dfs` from the start mint with
`max_depth = 4`, an empty path, an empty used-pool set and an empty result
list. -/
def build_arbitrage_graph (start_mint : Pubkey) (start_amount : Nat)
    (pools_map : List (Pubkey × List PoolMints)) (client : Client) :
    RustResult (List (List PoolMints)) :=
  dfs client start_mint start_amount pools_map 4 start_mint start_amount [] [] []

/-! ## Chain recomputation and accepted-chain invariant -/

/-- Recompute a chain hop by hop exactly as `dfs` weighs edges: choose the
direction with `poolDir`, quote with `amount_out`, and require a successful
nonzero output; returns the final `(asset, amount)`. -/
def followQuotes (client : Client) : Pubkey → Nat → List PoolMints →
    Option (Pubkey × Nat)
  | current_mint, current_amount, [] => some (current_mint, current_amount)
  | current_mint, current_amount, pool :: rest =>
    match poolDir pool current_mint with
    | none => none
    | some (token_in, token_out) =>
      match pool.amount_out client current_amount token_in with
      | .ok v => if v = 0 then none else followQuotes client token_out v rest
      | _ => none

/-- The asset transitions of a chain, ignoring amounts. -/
def followAssets : Pubkey → List PoolMints → Option Pubkey
  | current_mint, [] => some current_mint
  | current_mint, pool :: rest =>
    match poolDir pool current_mint with
    | none => none
    | some (_, token_out) => followAssets token_out rest

/-- The invariant of every chain `dfs` records: nonempty, at most 4 hops,
pairwise-distinct pool addresses, and a successful recomputation from the
start asset/amount back to the start asset with a strictly larger final
amount. -/
def AcceptedChain (client : Client) (start_mint : Pubkey) (start_amount : Nat)
    (chain : List PoolMints) : Prop :=
  chain ≠ [] ∧ chain.length ≤ 4 ∧
  (chain.map PoolMints.pool_pubkey).Nodup ∧
  ∃ amount, followQuotes client start_mint start_amount chain =
      some (start_mint, amount) ∧ start_amount < amount

/-- The `amount_in_after_fee` computation inside
`RaydiumAmmPoolInfo::amount_out` (checked fee then `saturating_sub`);
`none` models the `unwrap` panics. -/
def amm_amount_in_after_fee (p : RaydiumAmmPoolInfo) (amount_in : Nat) :
    Option Nat :=
  match u128_checked_mul amount_in p.fees.swap_fee_numerator with
  | none => none
  | some prod =>
    match checked_ceil_div prod p.fees.swap_fee_denominator with
    | none => none
    | some swap_fee => some (amount_in - swap_fee)

/-! ## Concrete inputs used by counterexamples and witnesses -/

/-- A 72-byte SPL token account whose amount field (offset 64) is `n`. -/
def mkSplData (n : Nat) : List Nat :=
  (List.range 72).map (fun i => if i < 64 then 0 else n / 256 ^ (i - 64) % 256)

/-- A client that knows no account. -/
def emptyClient : Client := fun _ => none

/-- Fee struct with zero swap fee (denominator 1). -/
def zeroFees : Fees := ⟨0, 0, 0, 0, 0, 0, 0, 1⟩

/-- AMM pool 100 trading mints 1 and 2 with vaults 11 and 12. -/
def exPool1 : RaydiumAmmPoolInfo := ⟨100, 11, 12, 1, 2, zeroFees⟩

/-- AMM pool 200 trading mints 2 and 1 with vaults 13 and 14. -/
def exPool2 : RaydiumAmmPoolInfo := ⟨200, 13, 14, 2, 1, zeroFees⟩

/-- Client holding the four vault accounts of `exPool1`/`exPool2` with
reserves (100, 1000) each. -/
def exClient : Client := fun key =>
  if key = 11 then some ⟨mkSplData 100⟩
  else if key = 12 then some ⟨mkSplData 1000⟩
  else if key = 13 then some ⟨mkSplData 100⟩
  else if key = 14 then some ⟨mkSplData 1000⟩
  else none

/-- Registry with one bucket per mint. -/
def exPoolsMap : List (Pubkey × List PoolMints) :=
  [(1, [.amm exPool1]), (2, [.amm exPool2])]

/-- Fee struct with the 25 bps numerator/denominator pair (25 / 10000). -/
def fee25Fees : Fees := ⟨0, 0, 25, 10000, 0, 0, 25, 10000⟩

/-- The constant-product reference pool: 25 bps fee, mints 2 and 3,
vaults 21 and 22. -/
def c7Pool : RaydiumAmmPoolInfo := ⟨500, 21, 22, 2, 3, fee25Fees⟩

/-- Client holding the reference reserves (1_000_000, 2_000_000). -/
def c7Client : Client := fun key =>
  if key = 21 then some ⟨mkSplData 1000000⟩
  else if key = 22 then some ⟨mkSplData 2000000⟩
  else none

/-- A 464-byte Raydium AMM account: vaults 11/12, base mint 2, quote mint 3,
all fee fields zero. -/
def c1Data : List Nat :=
  (List.range 464).map (fun i =>
    if i = 336 then 11 else if i = 368 then 12
    else if i = 400 then 2 else if i = 432 then 3 else 0)

/-- Parser for the C1 configuration: mint string "M" is pubkey 2 (the
pool's base mint), pool string "P" is pubkey 100. -/
def c1Parse : String → Option Pubkey := fun s =>
  if s = "M" then some 2 else if s = "P" then some 100 else none

/-- Client holding only the pool account 100. -/
def c1Client : Client := fun key =>
  if key = 100 then some ⟨c1Data⟩ else none

/-- Configuration with a single entry: mint "M" with one Raydium AMM pool
"P". -/
def c1Config : Config := ⟨[⟨"M", ["P"], []⟩]⟩

/-- The pool decoded from `c1Data`. -/
def c1Pool : RaydiumAmmPoolInfo := ⟨100, 11, 12, 2, 3, ⟨0, 0, 0, 0, 0, 0, 0, 0⟩⟩

/-- Client holding an empty (0-byte) account at address 100. -/
def c5Client : Client := fun key =>
  if key = 100 then some ⟨[]⟩ else none

/-- AMM pool whose decoded `swap_fee_denominator` is zero. -/
def c6Pool : RaydiumAmmPoolInfo := ⟨100, 11, 12, 1, 2, ⟨0, 0, 0, 0, 0, 0, 0, 0⟩⟩

/-- CLMM pool with nonzero liquidity and price, 25 bps fee. -/
def c3Clmm : RaydiumClmmPoolInfo :=
  ⟨300, 9, 1, 2, 31, 32, 6, 6, 1, 5, 2 ^ 64, 0, 25⟩

/-- DLMM pool with `bin_step = 0` (unit price), equal decimals and zero
fee. -/
def c4Dlmm : MeteoraDlmmPoolInfo := ⟨400, 1, 2, 41, 42, 6, 6, 10, 0, 0⟩

/-- CLMM pool with nonzero liquidity and square-root price and a 30 bps
fee (within the 10000 bps bound). -/
def c4Clmm : RaydiumClmmPoolInfo :=
  ⟨410, 9, 1, 2, 51, 52, 6, 6, 1, 7, 2 ^ 64, 0, 30⟩

/-! ## Theorems -/

/-- C7: for the constant-product quote with live reserves
(1_000_000, 2_000_000), fee fields 25/10000 (25 bps) and
`amount_in = 10_000` entering on the reserve-1_000_000 side, the fee is 25,
`amount_in_after_fee` is 9975 and the returned output is exactly 19_753
under integer truncation. -/
theorem c7_constant_product_reference_case :
    c7Pool.calc_swap_fee 10000 = .ok 25 ∧
    amm_amount_in_after_fee c7Pool 10000 = some 9975 ∧
    c7Pool.amount_out c7Client 10000 2 = .ok 19753 := by
  refine ⟨by decide, by decide, by decide⟩

/-- C3 counterexample: the concentrated-liquidity quote engine returns an
error, not `Ok(0)`, on `amount_in = 0` with a valid `asset_in` (here
`mint_a` of a pool with nonzero liquidity and price). -/
theorem c3_counterexample :
    (PoolMints.clmm c3Clmm).amount_out emptyClient 0 (PoolMints.clmm c3Clmm).mint_a =
      .error "Amount in is 0 or liquidity is 0" ∧
    (PoolMints.clmm c3Clmm).amount_out emptyClient 0 (PoolMints.clmm c3Clmm).mint_a ≠
      .ok 0 := by
  constructor
  · rfl
  · intro h
    simp [PoolMints.amount_out, RaydiumClmmPoolInfo.amount_out] at h

/-- C3 amended: `amount_in = 0` yields `Ok(0)` for the constant-product and
bin-stepped variants, but the concentrated-liquidity variant rejects it
with the `"Amount in is 0 or liquidity is 0"` error. -/
theorem c3_zero_input_amended :
    (∀ (p : RaydiumAmmPoolInfo) (client : Client) (token_in : Pubkey),
        p.amount_out client 0 token_in = .ok 0) ∧
    (∀ (p : MeteoraDlmmPoolInfo) (client : Client) (token_in : Pubkey),
        p.amount_out client 0 token_in = .ok 0) ∧
    (∀ (p : RaydiumClmmPoolInfo) (client : Client) (token_in : Pubkey),
        p.amount_out client 0 token_in =
          .error "Amount in is 0 or liquidity is 0") := by
  refine ⟨fun p client t => ?_, fun p client t => ?_, fun p client t => ?_⟩
  · simp [RaydiumAmmPoolInfo.amount_out]
  · simp [MeteoraDlmmPoolInfo.amount_out]
  · simp [RaydiumClmmPoolInfo.amount_out]

/-- C5 counterexample: the Raydium AMM decoder panics (out-of-range slice
indexing), rather than returning a decode error, on an undersized (empty)
pool account. -/
theorem c5_counterexample :
    RaydiumAmmPoolInfo.create 100 c5Client = .panicked := by decide

/-- C6 counterexample: with a decoded `swap_fee_denominator` of zero, the
constant-product quote panics (`unwrap` of `checked_ceil_div`) on any
nonzero input, vault fetches succeeding. -/
theorem c6_counterexample :
    c6Pool.fees.swap_fee_denominator = 0 ∧
    c6Pool.amount_out exClient 1 1 = .panicked := by
  refine ⟨by decide, by decide⟩

set_option maxRecDepth 100000 in
/-- C1 counterexample: a successful registry build whose only pool has
asset pair (2, 3) configured under mint 2; the bucket of its `asset_b` = 3
does not exist, so the pool is not in both of its asset buckets. -/
theorem c1_counterexample :
    Config.build_pools_hashmap c1Config c1Parse c1Client =
      .ok [(2, [.amm c1Pool])] ∧
    (PoolMints.amm c1Pool).mint_a = 2 ∧
    (PoolMints.amm c1Pool).mint_b = 3 ∧
    hmGet [(2, [PoolMints.amm c1Pool])] 3 = none := by
  refine ⟨by decide, by decide, by decide, by decide⟩

/-- C4 counterexample: the bin-stepped quote engine accepts a `token_in`
that is neither of the pool's mints and returns a numeric output (any
token different from `mint_a` is quoted as a b→a swap) instead of failing
with an invalid-asset error. -/
theorem c4_counterexample :
    (99 : Pubkey) ≠ (PoolMints.dlmm c4Dlmm).mint_a ∧
    (99 : Pubkey) ≠ (PoolMints.dlmm c4Dlmm).mint_b ∧
    (PoolMints.dlmm c4Dlmm).amount_out emptyClient 10000 99 = .ok 10000 := by
  refine ⟨by decide, by decide, ?_⟩
  simp only [PoolMints.amount_out, MeteoraDlmmPoolInfo.amount_out, c4Dlmm]
  norm_num [f64AsU64]
  decide

/-- A 72-byte-or-longer SPL account always yields an amount. -/
theorem read_spl_amount_of_length (acc : Account)
    (h : 72 ≤ acc.data.length) : ∃ v, read_spl_amount acc = some v := by
  unfold read_spl_amount read_u64 sliceBytes
  rw [if_pos (by omega)]
  exact ⟨_, rfl⟩

/-- `u64`-bounded operands never overflow the `u128` product. -/
theorem u128_checked_mul_of_lt {a b : Nat} (ha : a < 2 ^ 64)
    (hb : b < 2 ^ 64) : u128_checked_mul a b = some (a * b) := by
  unfold u128_checked_mul
  rw [if_pos]
  calc a * b < 2 ^ 64 * 2 ^ 64 := Nat.mul_lt_mul'' ha hb
  _ = 2 ^ 128 := by norm_num

/-- `checked_ceil_div` succeeds whenever the divisor is nonzero and the
dividend is below `u128::MAX`. -/
theorem checked_ceil_div_of_ne {a rhs : Nat} (hrhs : rhs ≠ 0)
    (ha : a + 1 < 2 ^ 128) : ∃ q, checked_ceil_div a rhs = some q := by
  unfold checked_ceil_div u128_checked_add
  rw [if_neg hrhs]
  by_cases h : a % rhs ≠ 0
  · rw [if_pos h, if_pos]
    · exact ⟨_, rfl⟩
    · have := Nat.div_le_self a rhs
      omega
  · rw [if_neg h]
    exact ⟨_, rfl⟩

/-- The constant-product tail never panics: the quotient is bounded by the
output reserve, so the final subtraction cannot underflow. -/
theorem ammConstantProduct_ne_panicked (rin rout x : Nat) :
    ammConstantProduct rin rout x ≠ .panicked := by
  unfold ammConstantProduct
  by_cases h : rin = 0 ∨ rout = 0
  · simp [h]
  · push_neg at h
    rw [if_neg (by tauto)]
    have hq : rin * rout / (rin + x) ≤ rout := by
      calc rin * rout / (rin + x) ≤ rin * rout / rin :=
            Nat.div_le_div_left (Nat.le_add_right _ _)
              (Nat.pos_of_ne_zero h.1)
      _ = rout := Nat.mul_div_cancel_left rout (Nat.pos_of_ne_zero h.1)
    rw [if_neg (by omega)]
    simp

/-- C4 amended: for the constant-product variant (nonzero fee denominator,
well-formed vault fetches, `u64`-bounded fields) a positive `amount_in`
with a `token_in` equal to neither mint fails with the invalid-asset
error; the concentrated-liquidity variant also rejects such a `token_in`
with its invalid-asset error once its earlier guards pass (nonzero
liquidity, fee within 10000 bps, nonzero square-root price); but the
bin-stepped variant performs no membership check at all — every
`token_in` different from `mint_a` is quoted exactly like a b→a swap. -/
theorem c4_invalid_asset_amended :
    (∀ (p : RaydiumAmmPoolInfo) (client : Client) (amount_in : Nat)
        (token_in : Pubkey) (base_acc quote_acc : Account),
        amount_in ≠ 0 → amount_in < 2 ^ 64 →
        p.fees.swap_fee_numerator < 2 ^ 64 →
        p.fees.swap_fee_denominator ≠ 0 →
        client p.base_vault = some base_acc → 72 ≤ base_acc.data.length →
        client p.quote_vault = some quote_acc → 72 ≤ quote_acc.data.length →
        token_in ≠ p.base_mint → token_in ≠ p.quote_mint →
        p.amount_out client amount_in token_in =
          .error "token_in is neither mint_a nor mint_b") ∧
    (∀ (p : RaydiumClmmPoolInfo) (client : Client) (amount_in : Nat)
        (token_in : Pubkey),
        amount_in ≠ 0 → p.liquidity ≠ 0 → p.fee_rate_bps ≤ 10000 →
        p.sqrt_price_x64 ≠ 0 →
        token_in ≠ p.mint_a → token_in ≠ p.mint_b →
        p.amount_out client amount_in token_in =
          .error "Token in is not mint_a or mint_b") ∧
    (∀ (p : MeteoraDlmmPoolInfo) (client : Client) (amount_in : Nat)
        (token_in : Pubkey),
        token_in ≠ p.mint_a → p.mint_b ≠ p.mint_a →
        p.amount_out client amount_in token_in =
          p.amount_out client amount_in p.mint_b) := by
  refine ⟨?_, ?_, ?_⟩
  · intro p client amount_in token_in base_acc quote_acc h0 h64 hnum hden hb hbl
      hq hql hta htb
    obtain ⟨bv, hbv⟩ := read_spl_amount_of_length base_acc hbl
    obtain ⟨qv, hqv⟩ := read_spl_amount_of_length quote_acc hql
    have hprod : amount_in * p.fees.swap_fee_numerator + 1 < 2 ^ 128 := by
      have h2 : amount_in * p.fees.swap_fee_numerator ≤
          (2 ^ 64 - 1) * (2 ^ 64 - 1) := Nat.mul_le_mul (by omega) (by omega)
      norm_num at h2 ⊢
      omega
    obtain ⟨q, hq2⟩ := checked_ceil_div_of_ne hden hprod
    simp only [RaydiumAmmPoolInfo.amount_out, if_neg h0, hb, hq, hbv, hqv,
      u128_checked_mul_of_lt h64 hnum, hq2, if_neg hta, if_neg htb]
  · intro p client amount_in token_in h0 hliq hfee hsqrt hta htb
    have h1 : ¬(amount_in = 0 ∨ p.liquidity = 0) := by tauto
    have hsp : ((p.sqrt_price_x64 : ℚ) / 2 ^ 64) ≠ 0 := by
      refine div_ne_zero ?_ (by norm_num)
      exact_mod_cast hsqrt
    have hpr : ((p.sqrt_price_x64 : ℚ) / 2 ^ 64) *
        ((p.sqrt_price_x64 : ℚ) / 2 ^ 64) *
        (10 : ℚ) ^ ((p.decimals_a : Int) - (p.decimals_b : Int)) ≠ 0 := by
      refine mul_ne_zero (mul_ne_zero hsp hsp) ?_
      exact zpow_ne_zero _ (by norm_num)
    simp only [RaydiumClmmPoolInfo.amount_out, if_neg h1,
      if_neg (show ¬10000 < p.fee_rate_bps by omega), if_neg hsp, if_neg hpr,
      if_neg hta, if_neg htb]
  · intro p client amount_in token_in hta htb
    simp only [MeteoraDlmmPoolInfo.amount_out, if_neg hta, if_neg htb]

/-- C4 witness: the three parts of the amended claim at concrete inputs —
the AMM and CLMM pools reject the unrelated token 99 with their
invalid-asset errors, and the DLMM pool quotes the unrelated token 99
exactly like `mint_b`. -/
theorem c4_witness :
    exPool1.amount_out exClient 1 99 =
      .error "token_in is neither mint_a nor mint_b" ∧
    c4Clmm.amount_out emptyClient 7 99 =
      .error "Token in is not mint_a or mint_b" ∧
    c4Dlmm.amount_out emptyClient 7 99 =
      c4Dlmm.amount_out emptyClient 7 c4Dlmm.mint_b :=
  ⟨c4_invalid_asset_amended.1 exPool1 exClient 1 99 ⟨mkSplData 100⟩
      ⟨mkSplData 1000⟩ (by decide) (by decide) (by decide) (by decide) rfl
      (by decide) rfl (by decide) (by decide) (by decide),
   c4_invalid_asset_amended.2.1 c4Clmm emptyClient 7 99 (by decide)
      (by decide) (by decide) (by decide) (by decide) (by decide),
   c4_invalid_asset_amended.2.2 c4Dlmm emptyClient 7 99 (by decide)
      (by decide)⟩

/-- C6 amended: the constant-product quote cannot panic when the decoded
`swap_fee_denominator` is nonzero, the `u64` field bounds hold, and every
fetched vault account carries at least the 72 bytes of an SPL amount
field (the `swap_fee_denominator = 0` case panics via `unwrap`); the
concentrated-liquidity and bin-stepped quotes cannot panic provided the
decoded `fee_rate_bps` is at most 10000 (beyond which the `u128`
subtraction `10_000 - fee_bps` underflows, a debug-mode panic). -/
theorem c6_no_panic_amended :
    (∀ (p : RaydiumAmmPoolInfo) (client : Client) (amount_in : Nat)
      (token_in : Pubkey),
      amount_in < 2 ^ 64 →
      p.fees.swap_fee_numerator < 2 ^ 64 →
      p.fees.swap_fee_denominator ≠ 0 →
      (∀ acc, client p.base_vault = some acc → 72 ≤ acc.data.length) →
      (∀ acc, client p.quote_vault = some acc → 72 ≤ acc.data.length) →
      p.amount_out client amount_in token_in ≠ .panicked) ∧
    (∀ (p : RaydiumClmmPoolInfo) (client : Client) (amount_in : Nat)
      (token_in : Pubkey),
      p.fee_rate_bps ≤ 10000 →
      p.amount_out client amount_in token_in ≠ .panicked) ∧
    (∀ (p : MeteoraDlmmPoolInfo) (client : Client) (amount_in : Nat)
      (token_in : Pubkey),
      p.fee_rate_bps ≤ 10000 →
      p.amount_out client amount_in token_in ≠ .panicked) := by
  refine ⟨?_, ?_, ?_⟩
  case refine_2 =>
    intro p client amount_in token_in hfee
    simp only [RaydiumClmmPoolInfo.amount_out]
    repeat' split
    all_goals try simp
    all_goals omega
  case refine_3 =>
    intro p client amount_in token_in hfee
    simp only [MeteoraDlmmPoolInfo.amount_out]
    repeat' split
    all_goals try simp
    all_goals omega
  intro p client amount_in token_in h64 hnum hden hbl hql
  unfold RaydiumAmmPoolInfo.amount_out
  by_cases h0 : amount_in = 0
  · simp [h0]
  · rw [if_neg h0]
    cases hb : client p.base_vault with
    | none => simp
    | some base_acc =>
      cases hq : client p.quote_vault with
      | none => simp
      | some quote_acc =>
        obtain ⟨bv, hbv⟩ := read_spl_amount_of_length base_acc (hbl _ hb)
        obtain ⟨qv, hqv⟩ := read_spl_amount_of_length quote_acc (hql _ hq)
        have hprod : amount_in * p.fees.swap_fee_numerator + 1 < 2 ^ 128 := by
          have h2 : amount_in * p.fees.swap_fee_numerator ≤
              (2 ^ 64 - 1) * (2 ^ 64 - 1) :=
            Nat.mul_le_mul (by omega) (by omega)
          norm_num at h2 ⊢
          omega
        obtain ⟨q, hq2⟩ := checked_ceil_div_of_ne hden hprod
        simp only [hbv, hqv, u128_checked_mul_of_lt h64 hnum, hq2]
        by_cases hta : token_in = p.base_mint
        · simp only [if_pos hta]
          exact ammConstantProduct_ne_panicked _ _ _
        · rw [if_neg hta]
          by_cases htb : token_in = p.quote_mint
          · simp only [if_pos htb]
            exact ammConstantProduct_ne_panicked _ _ _
          · simp [if_neg htb]

/-- C6 witness: the three parts of the amended no-panic theorem at
concrete pools, clients and inputs. -/
theorem c6_witness :
    exPool1.amount_out exClient 10 1 ≠ .panicked ∧
    c4Clmm.amount_out emptyClient 3 1 ≠ .panicked ∧
    c4Dlmm.amount_out emptyClient 5 1 ≠ .panicked :=
  ⟨c6_no_panic_amended.1 exPool1 exClient 10 1 (by decide) (by decide)
    (by decide)
    (fun acc h => by
      have h2 : (⟨mkSplData 100⟩ : Account) = acc := by
        have hc : exClient exPool1.base_vault = some ⟨mkSplData 100⟩ := rfl
        rw [hc] at h
        exact Option.some.inj h
      rw [← h2]
      decide)
    (fun acc h => by
      have h2 : (⟨mkSplData 1000⟩ : Account) = acc := by
        have hc : exClient exPool1.quote_vault = some ⟨mkSplData 1000⟩ := rfl
        rw [hc] at h
        exact Option.some.inj h
      rw [← h2]
      decide),
   c6_no_panic_amended.2.1 c4Clmm emptyClient 3 1 (by decide),
   c6_no_panic_amended.2.2 c4Dlmm emptyClient 5 1 (by decide)⟩

/-- An out-of-range pubkey read is the slice panic. -/
theorem readPubkeyAt_eq_none {data : List Nat} {off : Nat}
    (h : data.length < off + 32) : readPubkeyAt data off = none := by
  unfold readPubkeyAt sliceBytes
  rw [if_neg (by omega)]
  rfl

/-- C5 amended: the bin-stepped decoder checks the account length and
returns a decode error on undersized input, but the Raydium AMM and CLMM
decoders index fixed offsets without a length check and panic on input
shorter than the first sliced field. -/
theorem c5_undersized_decode_amended :
    (∀ data : List Nat, data.length < 8 + LBPAIR_SIZE →
        DlmmInfo.load_checked data = .error "Invalid data length for DlmmInfo") ∧
    (∀ (client : Client) (pk : Pubkey) (acc : Account),
        client pk = some acc → acc.data.length < 368 →
        RaydiumAmmPoolInfo.create pk client = .panicked) ∧
    (∀ (client : Client) (pk : Pubkey) (acc : Account),
        client pk = some acc → acc.data.length < 41 →
        RaydiumClmmPoolInfo.create pk client = .panicked) := by
  refine ⟨fun data h => ?_, fun client pk acc hc h => ?_,
    fun client pk acc hc h => ?_⟩
  · unfold DlmmInfo.load_checked
    rw [if_pos h]
  · unfold RaydiumAmmPoolInfo.create
    rw [hc]
    have hn : readPubkeyAt acc.data BASE_VAULT_OFFSET = none :=
      readPubkeyAt_eq_none
        (show acc.data.length < BASE_VAULT_OFFSET + 32 by
          unfold BASE_VAULT_OFFSET; omega)
    simp only [hn]
  · unfold RaydiumClmmPoolInfo.create
    rw [hc]
    have hn : readPubkeyAt acc.data AMM_CONFIG_OFFSET = none :=
      readPubkeyAt_eq_none
        (show acc.data.length < AMM_CONFIG_OFFSET + 32 by
          unfold AMM_CONFIG_OFFSET; omega)
    simp only [hn]

/-- C5 witness: the amended decoder-length theorem at concrete undersized
inputs (an empty byte string and an empty account). -/
theorem c5_witness :
    (List.length ([] : List Nat) < 8 + LBPAIR_SIZE ∧
      DlmmInfo.load_checked [] = .error "Invalid data length for DlmmInfo") ∧
    (c5Client 100 = some ⟨[]⟩ ∧
      RaydiumAmmPoolInfo.create 100 c5Client = .panicked) ∧
    RaydiumClmmPoolInfo.create 100 c5Client = .panicked :=
  ⟨⟨by decide, c5_undersized_decode_amended.1 [] (by decide)⟩,
   ⟨rfl, c5_undersized_decode_amended.2.1 c5Client 100 ⟨[]⟩ rfl (by decide)⟩,
   c5_undersized_decode_amended.2.2 c5Client 100 ⟨[]⟩ rfl (by decide)⟩

/-- Membership after a `HashMap` insert: the binding is old or is the new
one. -/
theorem hmInsert_mem {β : Type} (kv : Pubkey × β) :
    ∀ (m : List (Pubkey × β)) (k : Pubkey) (v : β),
      kv ∈ hmInsert m k v → kv ∈ m ∨ kv = (k, v) := by
  intro m
  induction m with
  | nil =>
    intro k v h
    simp [hmInsert] at h
    exact Or.inr h
  | cons kw rest ih =>
    intro k v h
    by_cases hk : kw.1 = k
    · rw [show kw = (kw.1, kw.2) from rfl] at h
      simp only [hmInsert, if_pos hk] at h
      rcases List.mem_cons.mp h with h1 | h1
      · exact Or.inr h1
      · exact Or.inl (List.mem_cons_of_mem _ h1)
    · rw [show kw = (kw.1, kw.2) from rfl] at h
      simp only [hmInsert, if_neg hk] at h
      rcases List.mem_cons.mp h with h1 | h1
      · exact Or.inl (h1 ▸ List.mem_cons_self _ _)
      · rcases ih k v h1 with h2 | h2
        · exact Or.inl (List.mem_cons_of_mem _ h2)
        · exact Or.inr h2

/-- Every binding of the map built by the registry loop is an inherited
binding or the (parsed mint, nonempty decoded pool list) of some processed
config entry. -/
theorem buildPoolsLoop_spec (parse : String → Option Pubkey) (client : Client) :
    ∀ (entries : List PoolConfig) (acc m : List (Pubkey × List PoolMints)),
      buildPoolsLoop parse client entries acc = .ok m →
      ∀ kv ∈ m, kv ∈ acc ∨
        ∃ entry ∈ entries, parse entry.mint = some kv.1 ∧
          buildEntryPools parse client entry = .ok kv.2 ∧ kv.2 ≠ [] := by
  intro entries
  induction entries with
  | nil =>
    intro acc m h kv hkv
    simp only [buildPoolsLoop] at h
    cases h
    exact Or.inl hkv
  | cons entry rest ih =>
    intro acc m h kv hkv
    simp only [buildPoolsLoop] at h
    cases hp : parse entry.mint with
    | none => rw [hp] at h; cases h
    | some mint_key =>
      rw [hp] at h
      cases hb : buildEntryPools parse client entry with
      | panicked => rw [hb] at h; cases h
      | error e => rw [hb] at h; cases h
      | ok pools_for_mint =>
        rw [hb] at h
        rcases ih _ m h kv hkv with hacc | ⟨e, he, h1, h2, h3⟩
        · by_cases hempty : pools_for_mint = []
          · rw [if_pos hempty] at hacc
            exact Or.inl hacc
          · rw [if_neg hempty] at hacc
            rcases hmInsert_mem kv acc mint_key pools_for_mint hacc with h1 | h1
            · exact Or.inl h1
            · refine Or.inr ⟨entry, List.mem_cons_self _ _, ?_, ?_, ?_⟩
              · rw [h1]; exact hp
              · rw [h1]; exact hb
              · rw [h1]; exact hempty
        · exact Or.inr ⟨e, List.mem_cons_of_mem _ he, h1, h2, h3⟩

/-- Pools produced by the AMM loop are `amm` variants. -/
theorem buildAmmPools_mem (parse : String → Option Pubkey) (client : Client) :
    ∀ (addrs : List String) (ps : List PoolMints),
      buildAmmPools parse client addrs = .ok ps →
      ∀ pool ∈ ps, ∃ a, pool = PoolMints.amm a := by
  intro addrs
  induction addrs with
  | nil =>
    intro ps h pool hp
    simp only [buildAmmPools] at h
    cases h
    cases hp
  | cons addr rest ih =>
    intro ps h pool hp
    simp only [buildAmmPools] at h
    cases hpa : parse addr with
    | none => rw [hpa] at h; cases h
    | some pk =>
      simp only [hpa] at h
      cases hcr : RaydiumAmmPoolInfo.create pk client with
      | panicked => simp [hcr] at h
      | error e => simp [hcr] at h
      | ok amm_pool =>
        simp only [hcr] at h
        cases hrest : buildAmmPools parse client rest with
        | panicked => simp [hrest] at h
        | error e => simp [hrest] at h
        | ok pools =>
          simp only [hrest] at h
          cases h
          rcases List.mem_cons.mp hp with h1 | h1
          · exact ⟨amm_pool, h1⟩
          · exact ih pools hrest pool h1

/-- Pools produced by the CLMM loop are `clmm` variants. -/
theorem buildClmmPools_mem (parse : String → Option Pubkey) (client : Client) :
    ∀ (addrs : List String) (ps : List PoolMints),
      buildClmmPools parse client addrs = .ok ps →
      ∀ pool ∈ ps, ∃ c, pool = PoolMints.clmm c := by
  intro addrs
  induction addrs with
  | nil =>
    intro ps h pool hp
    simp only [buildClmmPools] at h
    cases h
    cases hp
  | cons addr rest ih =>
    intro ps h pool hp
    simp only [buildClmmPools] at h
    cases hpa : parse addr with
    | none => rw [hpa] at h; cases h
    | some pk =>
      simp only [hpa] at h
      cases hcr : RaydiumClmmPoolInfo.create pk client with
      | panicked => simp [hcr] at h
      | error e => simp [hcr] at h
      | ok clmm_pool =>
        simp only [hcr] at h
        cases hrest : buildClmmPools parse client rest with
        | panicked => simp [hrest] at h
        | error e => simp [hrest] at h
        | ok pools =>
          simp only [hrest] at h
          cases h
          rcases List.mem_cons.mp hp with h1 | h1
          · exact ⟨clmm_pool, h1⟩
          · exact ih pools hrest pool h1

/-- Pools of a decoded config entry are `amm` or `clmm` variants. -/
theorem buildEntryPools_mem (parse : String → Option Pubkey) (client : Client)
    (entry : PoolConfig) (ps : List PoolMints)
    (h : buildEntryPools parse client entry = .ok ps) :
    ∀ pool ∈ ps, (∃ a, pool = PoolMints.amm a) ∨
      (∃ c, pool = PoolMints.clmm c) := by
  intro pool hp
  simp only [buildEntryPools] at h
  cases ha : buildAmmPools parse client entry.raydium_amm with
  | panicked => rw [ha] at h; cases h
  | error e => rw [ha] at h; cases h
  | ok amm_pools =>
    rw [ha] at h
    cases hc : buildClmmPools parse client entry.raydium_clmm with
    | panicked => rw [hc] at h; cases h
    | error e => rw [hc] at h; cases h
    | ok clmm_pools =>
      rw [hc] at h
      cases h
      rcases List.mem_append.mp hp with h1 | h1
      · exact Or.inl (buildAmmPools_mem parse client _ _ ha pool h1)
      · exact Or.inr (buildClmmPools_mem parse client _ _ hc pool h1)

/-- C1 amended: registry construction inserts each config entry's decoded
pools as one bucket keyed by that entry's configured (parsed) mint — every
bucket of a successful build is exactly the nonempty decoded pool list of
some config entry under its parsed mint key; pools are not inserted into
buckets keyed by their `asset_a`/`asset_b`. -/
theorem c1_registry_bucket_amended :
    ∀ (cfg : Config) (parse : String → Option Pubkey) (client : Client)
      (m : List (Pubkey × List PoolMints)),
      cfg.build_pools_hashmap parse client = .ok m →
      ∀ kv ∈ m, ∃ entry ∈ cfg.pools, parse entry.mint = some kv.1 ∧
        buildEntryPools parse client entry = .ok kv.2 ∧ kv.2 ≠ [] := by
  intro cfg parse client m h kv hkv
  rcases buildPoolsLoop_spec parse client cfg.pools [] m h kv hkv with h1 | h1
  · cases h1
  · exact h1

set_option maxRecDepth 100000 in
/-- C1 witness: the amended bucket theorem at the concrete one-entry
configuration. -/
theorem c1_witness :
    ∃ entry ∈ c1Config.pools, c1Parse entry.mint = some 2 ∧
      buildEntryPools c1Parse c1Client entry = .ok [.amm c1Pool] ∧
      ([PoolMints.amm c1Pool] : List PoolMints) ≠ [] := by
  have h := c1_registry_bucket_amended c1Config c1Parse c1Client
    [(2, [.amm c1Pool])] (by decide) (2, [.amm c1Pool]) (by decide)
  exact h

/-- C9: every pool in a successfully built registry is a constant-product
(Raydium AMM) or concentrated-liquidity (Raydium CLMM) pool; the
bin-stepped (Meteora DLMM) variant never appears, so no search over the
registry can evaluate a bin-stepped edge. -/
theorem c9_registry_no_dlmm :
    ∀ (cfg : Config) (parse : String → Option Pubkey) (client : Client)
      (m : List (Pubkey × List PoolMints)),
      cfg.build_pools_hashmap parse client = .ok m →
      ∀ kv ∈ m, ∀ pool ∈ kv.2,
        (∃ a, pool = PoolMints.amm a) ∨ (∃ c, pool = PoolMints.clmm c) := by
  intro cfg parse client m h kv hkv pool hp
  rcases buildPoolsLoop_spec parse client cfg.pools [] m h kv hkv with h1 | h1
  · cases h1
  · rcases h1 with ⟨entry, _, _, h2, _⟩
    exact buildEntryPools_mem parse client entry kv.2 h2 pool hp

set_option maxRecDepth 100000 in
/-- C9 witness: the registry theorem at the concrete build, whose single
pool is the `amm` variant. -/
theorem c9_witness :
    (∃ a, PoolMints.amm c1Pool = PoolMints.amm a) ∨
    (∃ c, PoolMints.amm c1Pool = PoolMints.clmm c) :=
  c9_registry_no_dlmm c1Config c1Parse c1Client [(2, [.amm c1Pool])]
    (by decide) (2, [.amm c1Pool]) (by decide) (.amm c1Pool) (by decide)

/-- C10: every bucket of a successfully built registry is nonempty — an
entry whose decoded pool list is empty is skipped, never inserted. -/
theorem c10_registry_buckets_nonempty :
    ∀ (cfg : Config) (parse : String → Option Pubkey) (client : Client)
      (m : List (Pubkey × List PoolMints)),
      cfg.build_pools_hashmap parse client = .ok m →
      ∀ kv ∈ m, kv.2 ≠ [] := by
  intro cfg parse client m h kv hkv
  rcases buildPoolsLoop_spec parse client cfg.pools [] m h kv hkv with h1 | h1
  · cases h1
  · exact h1.choose_spec.2.2.2

set_option maxRecDepth 100000 in
/-- C10 witness: the nonemptiness theorem at the concrete build. -/
theorem c10_witness : ([PoolMints.amm c1Pool] : List PoolMints) ≠ [] :=
  c10_registry_buckets_nonempty c1Config c1Parse c1Client
    [(2, [.amm c1Pool])] (by decide) (2, [.amm c1Pool]) (by decide)

/-- The direction chosen by `dfs` always enters on the current mint. -/
theorem poolDir_fst {pool : PoolMints} {cur tin tout : Pubkey}
    (h : poolDir pool cur = some (tin, tout)) : tin = cur := by
  unfold poolDir at h
  by_cases h1 : pool.mint_a = cur
  · rw [if_pos h1] at h
    cases h
    exact h1
  · rw [if_neg h1] at h
    by_cases h2 : pool.mint_b = cur
    · rw [if_pos h2] at h
      cases h
      exact h2
    · rw [if_neg h2] at h
      cases h

/-- Appending a singleton to a duplicate-free list of pubkeys. -/
theorem nodup_append_single {l : List Pubkey} {a : Pubkey}
    (h : l.Nodup) (ha : a ∉ l) : (l ++ [a]).Nodup := by
  rw [List.nodup_append]
  refine ⟨h, List.nodup_singleton a, ?_⟩
  intro x hx hxa
  rw [List.mem_singleton] at hxa
  exact ha (hxa ▸ hx)

/-- One-step unfolding of `followQuotes` at the end of a path. -/
theorem followQuotes_append (client : Client) (pool : PoolMints) :
    ∀ (path : List PoolMints) (cur : Pubkey) (amt : Nat),
      followQuotes client cur amt (path ++ [pool]) =
        match followQuotes client cur amt path with
        | none => none
        | some (m, a) =>
          match poolDir pool m with
          | none => none
          | some (tin, tout) =>
            match pool.amount_out client a tin with
            | .ok v => if v = 0 then none else some (tout, v)
            | _ => none := by
  intro path
  induction path with
  | nil =>
    intro cur amt
    cases hd : poolDir pool cur with
    | none => simp [followQuotes, hd]
    | some pr =>
      obtain ⟨tin, tout⟩ := pr
      cases hq : pool.amount_out client amt tin with
      | panicked => simp [followQuotes, hd, hq]
      | error e => simp [followQuotes, hd, hq]
      | ok v =>
        by_cases hv : v = 0 <;> simp [followQuotes, hd, hq, hv]
  | cons p rest ih =>
    intro cur amt
    rw [List.cons_append]
    cases hd : poolDir p cur with
    | none => simp [followQuotes, hd]
    | some pr =>
      obtain ⟨tin, tout⟩ := pr
      cases hq : p.amount_out client amt tin with
      | panicked => simp [followQuotes, hd, hq]
      | error e => simp [followQuotes, hd, hq]
      | ok v =>
        by_cases hv : v = 0
        · simp [followQuotes, hd, hq, hv]
        · simp only [followQuotes, hd, hq, if_neg hv]
          exact ih tout v

/-- A successful amount recomputation determines the asset walk. -/
theorem followAssets_of_followQuotes (client : Client) :
    ∀ (chain : List PoolMints) (cur : Pubkey) (amt : Nat)
      (m : Pubkey) (a : Nat),
      followQuotes client cur amt chain = some (m, a) →
      followAssets cur chain = some m := by
  intro chain
  induction chain with
  | nil =>
    intro cur amt m a h
    simp only [followQuotes] at h
    cases h
    rfl
  | cons p rest ih =>
    intro cur amt m a h
    cases hd : poolDir p cur with
    | none => simp [followQuotes, hd] at h
    | some pr =>
      obtain ⟨tin, tout⟩ := pr
      cases hq : p.amount_out client amt tin with
      | panicked => simp [followQuotes, hd, hq] at h
      | error e => simp [followQuotes, hd, hq] at h
      | ok v =>
        by_cases hv : v = 0
        · simp [followQuotes, hd, hq, hv] at h
        · simp only [followQuotes, hd, hq, if_neg hv] at h
          simp only [followAssets, hd]
          exact ih tout v m a h

/-- Invariant of one `dfs` level: provided the recursive call preserves the
accepted-chain invariant, the loop over a bucket preserves it, for any
consistent state (`used` mirrors the path, the path is duplicate-free,
short enough, and reaches the current asset/amount by recomputation). -/
theorem dfsLoop_inv (client : Client) (sm : Pubkey) (sa : Nat)
    (dfsRec : Pubkey → Nat → List PoolMints → List Pubkey →
      List (List PoolMints) → RustResult (List (List PoolMints)))
    (fuel : Nat)
    (Hrec : ∀ (cm : Pubkey) (ca : Nat) (path : List PoolMints)
        (used : List Pubkey) (result res : List (List PoolMints)),
        used = path.map PoolMints.pool_pubkey →
        (path.map PoolMints.pool_pubkey).Nodup →
        path.length + fuel ≤ 4 →
        followQuotes client sm sa path = some (cm, ca) →
        (∀ c ∈ result, AcceptedChain client sm sa c) →
        dfsRec cm ca path used result = .ok res →
        ∀ c ∈ res, AcceptedChain client sm sa c) :
    ∀ (pools : List PoolMints) (cm : Pubkey) (ca : Nat)
      (path : List PoolMints) (used : List Pubkey)
      (result res : List (List PoolMints)),
      used = path.map PoolMints.pool_pubkey →
      (path.map PoolMints.pool_pubkey).Nodup →
      path.length + fuel + 1 ≤ 4 →
      followQuotes client sm sa path = some (cm, ca) →
      (∀ c ∈ result, AcceptedChain client sm sa c) →
      dfsLoop client sm sa dfsRec pools cm ca path used result = .ok res →
      ∀ c ∈ res, AcceptedChain client sm sa c := by
  intro pools
  induction pools with
  | nil =>
    intro cm ca path used result res h1 h2 h3 h4 h5 h6
    simp only [dfsLoop] at h6
    cases h6
    exact h5
  | cons pool rest ih =>
    intro cm ca path used result res h1 h2 h3 h4 h5 h6
    simp only [dfsLoop] at h6
    by_cases hused : pool.pool_pubkey ∈ used
    · rw [if_pos hused] at h6
      exact ih cm ca path used result res h1 h2 h3 h4 h5 h6
    · rw [if_neg hused] at h6
      cases hd : poolDir pool cm with
      | none =>
        simp only [hd] at h6
        exact ih cm ca path used result res h1 h2 h3 h4 h5 h6
      | some pr =>
        obtain ⟨tin, tout⟩ := pr
        simp only [hd] at h6
        cases hq : pool.amount_out client ca tin with
        | panicked =>
          simp only [hq] at h6
          exact RustResult.noConfusion h6
        | error e =>
          simp only [hq] at h6
          exact ih cm ca path used result res h1 h2 h3 h4 h5 h6
        | ok v =>
          simp only [hq] at h6
          by_cases hv : v = 0
          · rw [if_pos hv] at h6
            exact ih cm ca path used result res h1 h2 h3 h4 h5 h6
          · rw [if_neg hv] at h6
            have hpk : pool.pool_pubkey ∉ path.map PoolMints.pool_pubkey := by
              rw [← h1]; exact hused
            have hnd' : ((path ++ [pool]).map PoolMints.pool_pubkey).Nodup := by
              rw [List.map_append]
              exact nodup_append_single h2 hpk
            have hused' : used ++ [pool.pool_pubkey] =
                (path ++ [pool]).map PoolMints.pool_pubkey := by
              rw [List.map_append, h1]
              rfl
            have hfq : followQuotes client sm sa (path ++ [pool]) =
                some (tout, v) := by
              rw [followQuotes_append]
              simp [h4, hd, hq, hv]
            by_cases ht : tout = sm
            · rw [if_pos ht] at h6
              by_cases hgt : sa < v
              · rw [if_pos hgt] at h6
                have hacc : AcceptedChain client sm sa (path ++ [pool]) := by
                  refine ⟨by simp, ?_, hnd', v, ht ▸ hfq, hgt⟩
                  simp only [List.length_append, List.length_singleton]
                  omega
                have h5' : ∀ c ∈ result ++ [path ++ [pool]],
                    AcceptedChain client sm sa c := by
                  intro c hc
                  rcases List.mem_append.mp hc with hcm | hcm
                  · exact h5 c hcm
                  · rw [List.mem_singleton.mp hcm]
                    exact hacc
                cases hlog : logChain client sa sm (path ++ [pool]) with
                | panicked =>
                  simp only [hlog] at h6
                  exact RustResult.noConfusion h6
                | error e =>
                  simp only [hlog] at h6
                  exact ih cm ca path used _ res h1 h2 h3 h4 h5' h6
                | ok u =>
                  simp only [hlog] at h6
                  exact ih cm ca path used _ res h1 h2 h3 h4 h5' h6
              · rw [if_neg hgt] at h6
                exact ih cm ca path used result res h1 h2 h3 h4 h5 h6
            · rw [if_neg ht] at h6
              cases hrec : dfsRec tout v (path ++ [pool])
                  (used ++ [pool.pool_pubkey]) result with
              | panicked =>
                simp only [hrec] at h6
                exact RustResult.noConfusion h6
              | error e =>
                simp only [hrec] at h6
                exact RustResult.noConfusion h6
              | ok result2 =>
                simp only [hrec] at h6
                have h5' : ∀ c ∈ result2, AcceptedChain client sm sa c :=
                  Hrec tout v (path ++ [pool]) (used ++ [pool.pool_pubkey])
                    result result2 hused' hnd'
                    (by simp only [List.length_append, List.length_singleton]
                        omega)
                    hfq h5 hrec
                exact ih cm ca path used result2 res h1 h2 h3 h4 h5' h6

/-- Invariant of the full recursive `dfs`: from any consistent state, every
chain in a successful result satisfies the accepted-chain invariant. -/
theorem dfs_inv (client : Client) (sm : Pubkey) (sa : Nat)
    (pools_map : List (Pubkey × List PoolMints)) :
    ∀ (fuel : Nat) (cm : Pubkey) (ca : Nat) (path : List PoolMints)
      (used : List Pubkey) (result res : List (List PoolMints)),
      used = path.map PoolMints.pool_pubkey →
      (path.map PoolMints.pool_pubkey).Nodup →
      path.length + fuel ≤ 4 →
      followQuotes client sm sa path = some (cm, ca) →
      (∀ c ∈ result, AcceptedChain client sm sa c) →
      dfs client sm sa pools_map fuel cm ca path used result = .ok res →
      ∀ c ∈ res, AcceptedChain client sm sa c := by
  intro fuel
  induction fuel with
  | zero =>
    intro cm ca path used result res h1 h2 h3 h4 h5 h6
    simp only [dfs] at h6
    cases h6
    exact h5
  | succ fuel ih =>
    intro cm ca path used result res h1 h2 h3 h4 h5 h6
    simp only [dfs] at h6
    cases hg : hmGet pools_map cm with
    | none =>
      rw [hg] at h6
      cases h6
      exact h5
    | some pools =>
      rw [hg] at h6
      exact dfsLoop_inv client sm sa
        (dfs client sm sa pools_map fuel) fuel
        (fun cm' ca' path' used' result' res' a1 a2 a3 a4 a5 a6 =>
          ih cm' ca' path' used' result' res' a1 a2 a3 a4 a5 a6)
        pools cm ca path used result res h1 h2 (by omega) h4 h5 h6

/-- C8: every chain returned by the search has between 1 and 4 pools,
pairwise-distinct pool addresses, enters its first pool on the start asset
and exits its last pool on the start asset. -/
theorem c8_chain_invariants :
    ∀ (start_mint : Pubkey) (start_amount : Nat)
      (pools_map : List (Pubkey × List PoolMints)) (client : Client)
      (chains : List (List PoolMints)),
      build_arbitrage_graph start_mint start_amount pools_map client =
        .ok chains →
      ∀ c ∈ chains,
        1 ≤ c.length ∧ c.length ≤ 4 ∧
        (c.map PoolMints.pool_pubkey).Nodup ∧
        (∀ pool rest, c = pool :: rest →
          ∃ tout, poolDir pool start_mint = some (start_mint, tout)) ∧
        followAssets start_mint c = some start_mint := by
  intro sm sa pm client chains h c hc
  have hacc := dfs_inv client sm sa pm 4 sm sa [] [] [] chains rfl (by simp)
    (by simp) rfl (by simp) h c hc
  obtain ⟨hne, hlen, hnd, amt, hfq, hgt⟩ := hacc
  refine ⟨?_, hlen, hnd, ?_, ?_⟩
  · cases c with
    | nil => exact absurd rfl hne
    | cons a b => simp
  · intro pool rest hcr
    subst hcr
    cases hd : poolDir pool sm with
    | none => simp [followQuotes, hd] at hfq
    | some pr =>
      obtain ⟨tin, tout⟩ := pr
      have htin := poolDir_fst hd
      exact ⟨tout, by rw [htin]⟩
  · exact followAssets_of_followQuotes client c sm sa sm amt hfq

set_option maxRecDepth 100000 in
/-- C8 witness: the chain-invariant theorem at a concrete search that finds
the 2-pool cycle (mint 1 → pool 100 → mint 2 → pool 200 → mint 1). -/
theorem c8_witness :
    build_arbitrage_graph 1 10 exPoolsMap exClient =
      .ok [[.amm exPool1, .amm exPool2]] ∧
    (1 ≤ ([PoolMints.amm exPool1, .amm exPool2] : List PoolMints).length ∧
     ([PoolMints.amm exPool1, .amm exPool2] : List PoolMints).length ≤ 4 ∧
     (([PoolMints.amm exPool1, .amm exPool2] : List PoolMints).map
        PoolMints.pool_pubkey).Nodup ∧
     (∀ pool rest,
        ([PoolMints.amm exPool1, .amm exPool2] : List PoolMints) =
          pool :: rest →
        ∃ tout, poolDir pool 1 = some (1, tout)) ∧
     followAssets 1 [PoolMints.amm exPool1, .amm exPool2] = some 1) :=
  ⟨by decide,
   c8_chain_invariants 1 10 exPoolsMap exClient
     [[.amm exPool1, .amm exPool2]] (by decide)
     [.amm exPool1, .amm exPool2] (by decide)⟩

/-- C2: the acceptance rule of the search.  First conjunct (the decision
point): when a pool closes the cycle back to the start asset with a
successful nonzero quote, the loop records the extended path as a chain if
and only if the quoted output strictly exceeds `start_amount` (the `if`
below), and it does not recurse further from that state.  Second conjunct
(globally): every chain in a successful search result recomputes from
`start_amount` back to the start asset with a final amount strictly
exceeding `start_amount` — in particular a path whose recomputed final
amount equals `start_amount` is never in the result. -/
theorem c2_accept_rule :
    (∀ (client : Client) (start_mint : Pubkey) (start_amount : Nat)
        (dfsRec : Pubkey → Nat → List PoolMints → List Pubkey →
          List (List PoolMints) → RustResult (List (List PoolMints)))
        (pool : PoolMints) (rest : List PoolMints) (current_mint : Pubkey)
        (current_amount : Nat) (path : List PoolMints) (used : List Pubkey)
        (result : List (List PoolMints)) (token_in : Pubkey) (amt : Nat),
        pool.pool_pubkey ∉ used →
        poolDir pool current_mint = some (token_in, start_mint) →
        pool.amount_out client current_amount token_in = .ok amt →
        amt ≠ 0 →
        logChain client start_amount start_mint (path ++ [pool]) ≠
          .panicked →
        dfsLoop client start_mint start_amount dfsRec (pool :: rest)
            current_mint current_amount path used result =
          dfsLoop client start_mint start_amount dfsRec rest
            current_mint current_amount path used
            (if start_amount < amt then result ++ [path ++ [pool]]
             else result)) ∧
    (∀ (start_mint : Pubkey) (start_amount : Nat)
        (pools_map : List (Pubkey × List PoolMints)) (client : Client)
        (chains : List (List PoolMints)),
        build_arbitrage_graph start_mint start_amount pools_map client =
          .ok chains →
        ∀ c ∈ chains, ∃ amt,
          followQuotes client start_mint start_amount c =
            some (start_mint, amt) ∧ start_amount < amt) := by
  constructor
  · intro client sm sa dfsRec pool rest cm ca path used result tin amt
      hused hd hq hne hlog
    simp only [dfsLoop]
    rw [if_neg hused]
    simp only [hd, hq, if_neg hne, if_pos rfl]
    by_cases hgt : sa < amt
    · rw [if_pos hgt, if_pos hgt]
      cases hlogc : logChain client sa sm (path ++ [pool]) with
      | panicked => exact absurd hlogc hlog
      | error e => simp [hlogc]
      | ok u => simp [hlogc]
    · rw [if_neg hgt, if_neg hgt]
      simp
  · intro sm sa pm client chains h c hc
    have hacc := dfs_inv client sm sa pm 4 sm sa [] [] [] chains rfl (by simp)
      (by simp) rfl (by simp) h c hc
    exact hacc.2.2.2

set_option maxRecDepth 100000 in
/-- C2 witness: the acceptance rule at the concrete closing step of the
2-pool cycle (quote 477 > 10 is recorded) and the global profit property
of the concrete search result. -/
theorem c2_witness :
    (PoolMints.amm exPool2).amount_out exClient 91 2 = .ok 477 ∧
    dfsLoop exClient 1 10 (dfs exClient 1 10 exPoolsMap 2)
        [.amm exPool2] 2 91 [.amm exPool1] [100] [] =
      dfsLoop exClient 1 10 (dfs exClient 1 10 exPoolsMap 2)
        [] 2 91 [.amm exPool1] [100]
        (if 10 < 477 then [] ++ [[.amm exPool1, .amm exPool2]] else []) ∧
    (∃ amt, followQuotes exClient 1 10 [.amm exPool1, .amm exPool2] =
        some (1, amt) ∧ 10 < amt) :=
  ⟨by decide,
   c2_accept_rule.1 exClient 1 10 (dfs exClient 1 10 exPoolsMap 2)
     (.amm exPool2) [] 2 91 [.amm exPool1] [100] [] 2 477
     (by decide) (by decide) (by decide) (by decide) (by decide),
   c2_accept_rule.2 1 10 exPoolsMap exClient [[.amm exPool1, .amm exPool2]]
     (by decide) [.amm exPool1, .amm exPool2] (by decide)⟩
